import Mathlib

/-!
Verification development for the `optimusprime` repository
(`src/repo-zipper/src/main.rs`): a CLI that zips the current directory
according to a resolved archive format and uploads it to a submission server.

The embedding models:
  * the string predicates used by the builder (`contains`, `ends_with`),
  * `create_zip_archive` (directory walk, exclusion filtering, format
    filtering, zip entry production, I/O failure points),
  * `send_zip_to_endpoint` (upload and artifact cleanup),
  * `check_with_server` (eligibility check response interpretation),
  * the `Commands::Send` arm of `main` (format resolution, eligibility
    gating, confirmation, validation, build, upload).

Filesystem and network effects are made explicit: the directory walk is a
list of walk items (successful entries or walk errors, mirroring
`WalkDir`'s iterator whose `Err` items the code drops via
`filter_map(|e| e.ok())`), and each network call is an abstract outcome
value consumed exactly where the code consumes the corresponding response.
-/

namespace RepoZipper

/-- `headMatch p l` is true when the char list `p` occurs at the start of
`l`; it is the primitive behind the models of Rust's `str::contains` and
`str::ends_with`. -/
def headMatch : List Char → List Char → Bool
  | [], _ => true
  | _ :: _, [] => false
  | a :: as, b :: bs => a == b && headMatch as bs

/-- `subSearch p l` is true when `p` occurs contiguously anywhere in `l`. -/
def subSearch (p : List Char) : List Char → Bool
  | [] => headMatch p []
  | b :: bs => headMatch p (b :: bs) || subSearch p bs

/-- Model of Rust `s.contains(pat)`: substring containment on the
character sequence, with no regard for path segment boundaries. -/
def strContains (s pat : String) : Bool :=
  subSearch pat.data s.data

/-- Model of Rust `s.ends_with(pat)`. -/
def strEndsWith (s pat : String) : Bool :=
  headMatch pat.data.reverse s.data.reverse

/-- The baseline exclusion list hard-coded at the top of
`create_zip_archive` (`main.rs` lines 292-298). -/
def baselineExclusions : List String :=
  [".git", ".DS_Store", "target", "node_modules", ".zip"]

/-- The fixed allow-list of suffixes used for the `"py"` format
(`main.rs` line 308). -/
def pyIncludePatterns : List String :=
  [".py", "requirements.txt", "pyproject.toml", "setup.py", "setup.cfg",
   "Pipfile", "Pipfile.lock", "poetry.lock"]

/-- `include_patterns` as computed from the format string
(`main.rs` lines 304-315): the fixed python allow-list for `"py"`,
empty for every other format string. -/
def includePatternsFor (fmt : String) : List String :=
  if fmt == "py" then pyIncludePatterns else []

/-- One successfully yielded entry of the directory walk.  `relPath` is
the path relative to the walk root (`""` for the root itself), `isFile`
tells a regular file from a directory, `readable` records whether
`File::open` on it would succeed, and `contents` are its bytes. -/
structure WalkEntry where
  relPath : String
  isFile : Bool
  readable : Bool
  contents : List Nat
deriving DecidableEq

/-- One item of the `WalkDir` iterator: a successful entry or a walk
error (e.g. an unreadable directory), which the code filters out with
`filter_map(|e| e.ok())`. -/
inductive WalkItem
  | ok (e : WalkEntry)
  | err (msg : String)
deriving DecidableEq

/-- An entry written into the zip archive: a file entry carrying the
relative name and the bytes streamed into it, or a directory entry. -/
inductive ZipEntry
  | fileEntry (name : String) (contents : List Nat)
  | dirEntry (name : String)
deriving DecidableEq

/-- The string form of a walked path (`path.to_string_lossy()`): the walk
root for the root itself and the `/`-joined absolute path otherwise. -/
def pathStrOf (root : String) (e : WalkEntry) : String :=
  if e.relPath == "" then root else root ++ "/" ++ e.relPath

/-- The exclusion test of `main.rs` line 325:
`excluded.iter().any(|e| path_str.contains(e))`, applied to the full
path string of the walked entry. -/
def excludedBySet (pathStr : String) (excl : List String) : Bool :=
  excl.any (fun x => strContains pathStr x)

/-- The per-entry body of the walk loop of `create_zip_archive`
(`main.rs` lines 320-361), without the I/O of opening the file: `none`
when the entry is skipped, otherwise the zip entry produced for it.
The checks appear in source order: exclusion-set containment on the full
path string, the unconditional `submission.yml` suffix skip, the
root-entry skip, the `"py"` allow-list test for regular files, then the
file/directory entry construction. -/
def processEntry (root fmt : String) (excl : List String) (e : WalkEntry) :
    Option ZipEntry :=
  let pathStr := pathStrOf root e
  if excludedBySet pathStr excl then none
  else if strEndsWith pathStr "submission.yml" then none
  else if e.relPath == "" then none
  else if fmt == "py" && e.isFile &&
      !((includePatternsFor fmt).any (fun p => strEndsWith pathStr p)) then none
  else if e.isFile then some (ZipEntry.fileEntry e.relPath e.contents)
  else if !(e.relPath == "") then some (ZipEntry.dirEntry e.relPath)
  else none

/-- The walk loop of `create_zip_archive` with its I/O failure point:
walk errors are dropped (`filter_map(|e| e.ok())`), and `File::open`
failing on an entry that is about to be written aborts the build with an
I/O error (`main.rs` line 353). -/
def zipLoop (root fmt : String) (excl : List String) :
    List WalkItem → Except String (List ZipEntry)
  | [] => Except.ok []
  | WalkItem.err _ :: rest => zipLoop root fmt excl rest
  | WalkItem.ok e :: rest =>
    match processEntry root fmt excl e with
    | none => zipLoop root fmt excl rest
    | some (ZipEntry.dirEntry d) =>
      (zipLoop root fmt excl rest).map (fun l => ZipEntry.dirEntry d :: l)
    | some (ZipEntry.fileEntry n c) =>
      if e.readable then
        (zipLoop root fmt excl rest).map (fun l => ZipEntry.fileEntry n c :: l)
      else Except.error "IoError: failed to open file"

/-- Model of `create_zip_archive` (`main.rs` lines 268-368) as the list
of entries written to the archive, with the two I/O failure points of
the function: `destCreatable` records whether removing a stale archive
and `File::create` on the destination path succeed, and an unreadable
included file aborts the loop.  The exclusion set is the hard-coded
baseline extended with the user-supplied exclusions
(`main.rs` line 301). -/
def create_zip_archiveE (destCreatable : Bool) (root fmt : String)
    (custom : List String) (walk : List WalkItem) :
    Except String (List ZipEntry) :=
  if destCreatable then zipLoop root fmt (baselineExclusions ++ custom) walk
  else Except.error "IoError: failed to create destination archive file"

/-- The entry list produced by `create_zip_archive` on a walk that
yields only successful entries, all of them readable: the pure filtering
core of the builder. -/
def create_zip_archive (root fmt : String) (custom : List String)
    (entries : List WalkEntry) : List ZipEntry :=
  entries.filterMap (processEntry root fmt (baselineExclusions ++ custom))

/-- The successful entries of a walk, in order (what
`filter_map(|e| e.ok())` retains). -/
def okEntries : List WalkItem → List WalkEntry
  | [] => []
  | WalkItem.ok e :: rest => e :: okEntries rest
  | WalkItem.err _ :: rest => okEntries rest

/-- The names of the file entries of an archive, in order. -/
def fileNames : List ZipEntry → List String
  | [] => []
  | ZipEntry.fileEntry n _ :: rest => n :: fileNames rest
  | ZipEntry.dirEntry _ :: rest => fileNames rest

/-- The outcome of one blocking HTTP exchange as the code observes it: a
transport-level failure from `send()`, or a definitive response with its
success flag, status code and body. -/
inductive HttpOutcome
  | transportErr (msg : String)
  | response (success : Bool) (status : Nat) (body : String)
deriving DecidableEq

/-- Model of `send_zip_to_endpoint` (`main.rs` lines 371-419).  The
first component is the returned result; the second records whether the
local archive artifact was deleted (`std::fs::remove_file`, line 416).
`fileReadable` is whether opening and reading the artifact succeeds
(lines 372-377); on a transport failure the `?` on `send()` propagates;
on a non-success response the function returns the `ServerRejected`
error at line 408, before the `remove_file` call; only the success
branch falls through to the cleanup. -/
def send_zip_to_endpoint (fileReadable : Bool) (o : HttpOutcome) :
    Except String Unit × Bool :=
  if !fileReadable then
    (Except.error "IoError: failed to open artifact", false)
  else
    match o with
    | HttpOutcome.transportErr m => (Except.error m, false)
    | HttpOutcome.response ok status body =>
      if ok then (Except.ok (), true)
      else
        (Except.error ("Failed to send zip file to endpoint. Status: " ++
          toString status ++ ", Body: " ++ body), false)

/-- The parsed shape of the `/check` response body
(`CheckResponse`, `main.rs` lines 63-70; the display-only fields are
omitted). -/
structure CheckResponseM where
  submission_approved : Bool
  required_format : String
  remaining_attempts : Int
deriving DecidableEq

/-- The eligibility check's HTTP exchange as observed by
`check_with_server`: transport failure, or a response whose body either
parses into a `CheckResponseM` or fails to parse. -/
inductive CheckHttp
  | transportErr (msg : String)
  | httpResp (success : Bool) (status : Nat)
      (body : Except String CheckResponseM)

/-- Model of `check_with_server` (`main.rs` lines 213-265): transport
failures propagate, a non-success status becomes an error carrying the
status, and otherwise the parse result of the body is returned. -/
def check_with_server : CheckHttp → Except String CheckResponseM
  | CheckHttp.transportErr m => Except.error m
  | CheckHttp.httpResp ok status body =>
    if ok then body
    else Except.error ("Failed to check with server. Status: " ++
      toString status)

/-- The terminal outcome of a `send` run: `success` and `earlyExit` are
`Ok(())` returns of `main` (process exit zero), `failure` is an `Err`
return (process exit non-zero). -/
inductive Outcome
  | success
  | earlyExit (msg : String)
  | failure (msg : String)
deriving DecidableEq

/-- `true` exactly when the outcome makes `main` return `Ok(())`, i.e.
the process exits with status zero. -/
def exitZero : Outcome → Bool
  | Outcome.failure _ => false
  | _ => true

/-- Observable side effects of a `send` run: whether the eligibility
endpoint was contacted, the format the run resolved (if it got that
far), whether `create_zip_archive` was invoked (the only step that
writes to the filesystem), and whether `send_zip_to_endpoint` was
invoked. -/
structure Trace where
  checkedServer : Bool
  resolvedFormat : Option String
  archiveBuilt : Bool
  uploadCalled : Bool
deriving DecidableEq

/-- The external world of one `send` run: the eligibility exchange the
server would produce if contacted, the user's answer to the
confirmation prompt if shown, and the results of the build and upload
steps if reached. -/
structure SendEnv where
  checkHttp : CheckHttp
  userConfirms : Bool
  buildResult : Except String Unit
  uploadResult : Except String Unit

/-- The tail of the `Send` arm of `main` after a format has been
resolved (`main.rs` lines 723-737): validate the format against exactly
`"repo"` and `"py"`, then build, then upload, each failure fatal. -/
def afterFormat (fmt : String) (env : SendEnv) (checked : Bool) :
    Outcome × Trace :=
  if !(fmt == "repo") && !(fmt == "py") then
    (Outcome.failure ("Unsupported format: " ++ fmt),
     ⟨checked, some fmt, false, false⟩)
  else
    match env.buildResult with
    | Except.error e => (Outcome.failure e, ⟨checked, some fmt, true, false⟩)
    | Except.ok _ =>
      match env.uploadResult with
      | Except.error e => (Outcome.failure e, ⟨checked, some fmt, true, true⟩)
      | Except.ok _ => (Outcome.success, ⟨checked, some fmt, true, true⟩)

/-- Model of the `Commands::Send` arm of `main`
(`main.rs` lines 657-738).  Format resolution (lines 686-721): a forced
format bypasses the server check; otherwise a configured format bypasses
it; otherwise `check_with_server` is consulted — a non-approved decision
returns `Ok(())` at once, then (unless auto-confirm is set by flag or
config) the user is prompted and a decline returns `Ok(())`; the
server's `required_format` becomes the resolved format.  The resolved
format then flows into `afterFormat`. -/
def runSend (forceFormat configFormat : Option String)
    (autoConfirmFlag autoConfirmCfg : Bool) (env : SendEnv) :
    Outcome × Trace :=
  let autoConfirmSubmission := autoConfirmFlag || autoConfirmCfg
  match forceFormat with
  | some f => afterFormat f env false
  | none =>
    match configFormat with
    | some f => afterFormat f env false
    | none =>
      match check_with_server env.checkHttp with
      | Except.error e => (Outcome.failure e, ⟨true, none, false, false⟩)
      | Except.ok resp =>
        if !resp.submission_approved then
          (Outcome.earlyExit "Submission not allowed. No remaining attempts.",
           ⟨true, none, false, false⟩)
        else if !autoConfirmSubmission && !env.userConfirms then
          (Outcome.earlyExit "Submission cancelled.",
           ⟨true, none, false, false⟩)
        else afterFormat resp.required_format env true

/-! ### Lemmas about the string predicates -/

theorem headMatch_iff_exists (p : List Char) :
    ∀ s : List Char, headMatch p s = true ↔ ∃ t, s = p ++ t := by
  induction p with
  | nil =>
    intro s
    simp [headMatch]
  | cons a as ih =>
    intro s
    cases s with
    | nil =>
      simp [headMatch]
    | cons b bs =>
      simp only [headMatch, Bool.and_eq_true, beq_iff_eq, ih bs,
        List.cons_append, List.cons.injEq]
      constructor
      · rintro ⟨rfl, t, rfl⟩
        exact ⟨t, rfl, rfl⟩
      · rintro ⟨t, rfl, rfl⟩
        exact ⟨rfl, t, rfl⟩

theorem subSearch_iff_exists (p : List Char) :
    ∀ s : List Char, subSearch p s = true ↔ ∃ l r, s = l ++ p ++ r := by
  intro s
  induction s with
  | nil =>
    simp only [subSearch, headMatch_iff_exists]
    constructor
    · rintro ⟨t, ht⟩
      exact ⟨[], t, by simpa using ht⟩
    · rintro ⟨l, r, h⟩
      rcases List.append_eq_nil.mp (List.append_eq_nil.mp h.symm).1 with ⟨h1, h2⟩
      exact ⟨r, by simp [h2, (List.append_eq_nil.mp h.symm).2]⟩
  | cons b bs ih =>
    simp only [subSearch, Bool.or_eq_true, headMatch_iff_exists, ih]
    constructor
    · rintro (⟨t, ht⟩ | ⟨l, r, rfl⟩)
      · exact ⟨[], t, by simpa using ht⟩
      · exact ⟨b :: l, r, by simp⟩
    · rintro ⟨l, r, h⟩
      cases l with
      | nil =>
        exact Or.inl ⟨r, by simpa using h⟩
      | cons x xs =>
        right
        refine ⟨xs, r, ?_⟩
        simpa using (List.cons.injEq .. ▸ h :
          b = x ∧ bs = xs ++ p ++ r).2

theorem strContains_iff_exists (s pat : String) :
    strContains s pat = true ↔ ∃ l r, s.data = l ++ pat.data ++ r := by
  simp [strContains, subSearch_iff_exists]

theorem excludedBySet_iff_exists (pathStr : String) (excl : List String) :
    excludedBySet pathStr excl = true ↔
      ∃ x ∈ excl, ∃ l r, pathStr.data = l ++ x.data ++ r := by
  simp [excludedBySet, List.any_eq_true, strContains_iff_exists]

theorem headMatch_append_cons_not_mem (c : Char) :
    ∀ p r q : List Char, c ∉ p →
      headMatch p (r ++ c :: q) = headMatch p r := by
  intro p
  induction p with
  | nil =>
    intro r q _
    simp [headMatch]
  | cons a as ih =>
    intro r q hc
    cases r with
    | nil =>
      have hac : (a == c) = false := by
        simp only [beq_eq_false_iff_ne]
        intro h
        exact hc (h ▸ List.mem_cons_self a as)
      simp [headMatch, hac]
    | cons b bs =>
      have : c ∉ as := fun h => hc (List.mem_cons_of_mem a h)
      simp [headMatch, ih bs q this]

theorem strEndsWith_slash_append (root rel pat : String)
    (h : '/' ∉ pat.data) :
    strEndsWith (root ++ "/" ++ rel) pat = strEndsWith rel pat := by
  have hdata : (root ++ "/" ++ rel).data =
      root.data ++ '/' :: rel.data := by
    simp [String.data_append]
  have hrev : (root ++ "/" ++ rel).data.reverse =
      rel.data.reverse ++ '/' :: root.data.reverse := by
    simp [hdata, List.reverse_append]
  have hmem : '/' ∉ pat.data.reverse := by
    simpa using h
  simp only [strEndsWith, hrev]
  exact headMatch_append_cons_not_mem '/' pat.data.reverse
    rel.data.reverse root.data.reverse hmem

theorem pyIncludePatterns_no_slash :
    ∀ p ∈ pyIncludePatterns, '/' ∉ p.data := by
  decide

theorem any_congr_of_eq {α : Type} (f g : α → Bool) :
    ∀ l : List α, (∀ x ∈ l, f x = g x) → l.any f = l.any g := by
  intro l
  induction l with
  | nil => intro _; rfl
  | cons a as ih =>
    intro h
    simp only [List.any_cons, h a (List.mem_cons_self a as),
      ih fun x hx => h x (List.mem_cons_of_mem a hx)]

/-- Suffix tests against the python allow-list agree between the full
path string `root ++ "/" ++ rel` and the relative path `rel`, because no
allow-listed suffix contains a path separator. -/
theorem pyAny_slash_append (root rel : String) :
    pyIncludePatterns.any (fun p => strEndsWith (root ++ "/" ++ rel) p) =
      pyIncludePatterns.any (fun p => strEndsWith rel p) := by
  apply any_congr_of_eq
  intro p hp
  exact strEndsWith_slash_append root rel p (pyIncludePatterns_no_slash p hp)

/-! ### Structural lemmas about the archive builder -/

theorem processEntry_eq_none_iff (root fmt : String) (excl : List String)
    (e : WalkEntry) :
    processEntry root fmt excl e = none ↔
      (excludedBySet (pathStrOf root e) excl = true
       ∨ strEndsWith (pathStrOf root e) "submission.yml" = true
       ∨ e.relPath = ""
       ∨ (fmt = "py" ∧ e.isFile = true ∧
          pyIncludePatterns.any
            (fun p => strEndsWith (pathStrOf root e) p) = false)) := by
  by_cases h1 : excludedBySet (pathStrOf root e) excl = true
  · simp [processEntry, h1]
  · rw [Bool.not_eq_true] at h1
    by_cases h2 : strEndsWith (pathStrOf root e) "submission.yml" = true
    · simp [processEntry, h1, h2]
    · rw [Bool.not_eq_true] at h2
      by_cases h3 : e.relPath = ""
      · simp [processEntry, h1, h2, h3]
      · have h3' : (e.relPath == "") = false := beq_eq_false_iff_ne.mpr h3
        by_cases h4 : fmt = "py"
        · by_cases h5 : e.isFile = true
          · by_cases h6 : pyIncludePatterns.any
                (fun p => strEndsWith (pathStrOf root e) p) = true
            · simp [processEntry, includePatternsFor, h1, h2, h3, h3', h4, h5, h6]
            · rw [Bool.not_eq_true] at h6
              simp [processEntry, includePatternsFor, h1, h2, h3, h3', h4, h5, h6]
          · rw [Bool.not_eq_true] at h5
            simp [processEntry, includePatternsFor, h1, h2, h3, h3', h4, h5]
        · have h4' : (fmt == "py") = false := beq_eq_false_iff_ne.mpr h4
          by_cases h5 : e.isFile = true
          · simp [processEntry, h1, h2, h3, h3', h4, h4', h5]
          · rw [Bool.not_eq_true] at h5
            simp [processEntry, h1, h2, h3, h3', h4, h4', h5]

theorem processEntry_dir_some (root fmt : String) (excl : List String)
    (e : WalkEntry) (hdir : e.isFile = false)
    (hex : excludedBySet (pathStrOf root e) excl = false)
    (hend : strEndsWith (pathStrOf root e) "submission.yml" = false)
    (hne : e.relPath ≠ "") :
    processEntry root fmt excl e = some (ZipEntry.dirEntry e.relPath) := by
  have hne' : (e.relPath == "") = false := beq_eq_false_iff_ne.mpr hne
  simp [processEntry, hex, hend, hdir, hne']

theorem processEntry_file_some (root fmt : String) (excl : List String)
    (e : WalkEntry) (hf : e.isFile = true)
    (hex : excludedBySet (pathStrOf root e) excl = false)
    (hend : strEndsWith (pathStrOf root e) "submission.yml" = false)
    (hne : e.relPath ≠ "")
    (hpy : fmt = "py" →
      pyIncludePatterns.any (fun p => strEndsWith (pathStrOf root e) p) = true) :
    processEntry root fmt excl e =
      some (ZipEntry.fileEntry e.relPath e.contents) := by
  have hne' : (e.relPath == "") = false := beq_eq_false_iff_ne.mpr hne
  by_cases hfmt : fmt = "py"
  · simp [processEntry, includePatternsFor, hex, hend, hf, hne', hfmt, hpy hfmt]
  · have hfmt' : (fmt == "py") = false := beq_eq_false_iff_ne.mpr hfmt
    simp [processEntry, hex, hend, hf, hne', hfmt']

theorem processEntry_spec (root fmt : String) (excl : List String)
    (e : WalkEntry) :
    processEntry root fmt excl e = none
    ∨ (e.isFile = true ∧ e.relPath ≠ "" ∧
       excludedBySet (pathStrOf root e) excl = false ∧
       strEndsWith (pathStrOf root e) "submission.yml" = false ∧
       (fmt = "py" →
         pyIncludePatterns.any
           (fun p => strEndsWith (pathStrOf root e) p) = true) ∧
       processEntry root fmt excl e =
         some (ZipEntry.fileEntry e.relPath e.contents))
    ∨ (e.isFile = false ∧ e.relPath ≠ "" ∧
       excludedBySet (pathStrOf root e) excl = false ∧
       strEndsWith (pathStrOf root e) "submission.yml" = false ∧
       processEntry root fmt excl e =
         some (ZipEntry.dirEntry e.relPath)) := by
  by_cases h1 : excludedBySet (pathStrOf root e) excl = true
  · exact Or.inl (by simp [processEntry, h1])
  · rw [Bool.not_eq_true] at h1
    by_cases h2 : strEndsWith (pathStrOf root e) "submission.yml" = true
    · exact Or.inl (by simp [processEntry, h1, h2])
    · rw [Bool.not_eq_true] at h2
      by_cases h3 : e.relPath = ""
      · exact Or.inl (by simp [processEntry, h1, h2, h3])
      · by_cases h5 : e.isFile = true
        · by_cases h4 : fmt = "py"
          · by_cases h6 : pyIncludePatterns.any
                (fun p => strEndsWith (pathStrOf root e) p) = true
            · exact Or.inr (Or.inl ⟨h5, h3, h1, h2, fun _ => h6,
                processEntry_file_some root fmt excl e h5 h1 h2 h3
                  fun _ => h6⟩)
            · rw [Bool.not_eq_true] at h6
              have h3' : (e.relPath == "") = false := beq_eq_false_iff_ne.mpr h3
              exact Or.inl (by
                simp [processEntry, includePatternsFor, h1, h2, h3', h4, h5, h6])
          · exact Or.inr (Or.inl ⟨h5, h3, h1, h2, fun hf => absurd hf h4,
              processEntry_file_some root fmt excl e h5 h1 h2 h3
                fun hf => absurd hf h4⟩)
        · rw [Bool.not_eq_true] at h5
          exact Or.inr (Or.inr ⟨h5, h3, h1, h2,
            processEntry_dir_some root fmt excl e h5 h1 h2 h3⟩)

theorem processEntry_some_file_inv (root fmt : String) (excl : List String)
    (e : WalkEntry) (n : String) (c : List Nat)
    (h : processEntry root fmt excl e = some (ZipEntry.fileEntry n c)) :
    n = e.relPath ∧ c = e.contents ∧ e.isFile = true ∧ e.relPath ≠ "" ∧
    excludedBySet (pathStrOf root e) excl = false ∧
    strEndsWith (pathStrOf root e) "submission.yml" = false ∧
    (fmt = "py" →
      pyIncludePatterns.any (fun p => strEndsWith (pathStrOf root e) p) = true) := by
  rcases processEntry_spec root fmt excl e with hnone | hfile | hdir
  · rw [hnone] at h
    exact absurd h (by simp)
  · obtain ⟨hf, hne, hex, hend, hpy, heq⟩ := hfile
    rw [heq] at h
    injection h with h'
    injection h' with hn hc
    exact ⟨hn.symm, hc.symm, hf, hne, hex, hend, hpy⟩
  · obtain ⟨_, _, _, _, heq⟩ := hdir
    rw [heq] at h
    exact absurd h (by simp)

theorem processEntry_some_dir_inv (root fmt : String) (excl : List String)
    (e : WalkEntry) (n : String)
    (h : processEntry root fmt excl e = some (ZipEntry.dirEntry n)) :
    n = e.relPath ∧ e.isFile = false ∧ e.relPath ≠ "" ∧
    excludedBySet (pathStrOf root e) excl = false ∧
    strEndsWith (pathStrOf root e) "submission.yml" = false := by
  rcases processEntry_spec root fmt excl e with hnone | hfile | hdir
  · rw [hnone] at h
    exact absurd h (by simp)
  · obtain ⟨_, _, _, _, _, heq⟩ := hfile
    rw [heq] at h
    exact absurd h (by simp)
  · obtain ⟨hf, hne, hex, hend, heq⟩ := hdir
    rw [heq] at h
    injection h with h'
    injection h' with hn
    exact ⟨hn.symm, hf, hne, hex, hend⟩

theorem processEntry_fmt_not_py (root f : String) (h : f ≠ "py")
    (excl : List String) (e : WalkEntry) :
    processEntry root f excl e = processEntry root "repo" excl e := by
  have hf : (f == "py") = false := beq_eq_false_iff_ne.mpr h
  have hr : (("repo" : String) == "py") = false := by decide
  simp [processEntry, hf, hr]

theorem zipLoop_fmt_not_py (root f : String) (h : f ≠ "py")
    (excl : List String) :
    ∀ walk, zipLoop root f excl walk = zipLoop root "repo" excl walk := by
  intro walk
  induction walk with
  | nil => rfl
  | cons i rest ih =>
    cases i with
    | err m => simpa [zipLoop] using ih
    | ok e =>
      simp only [zipLoop, processEntry_fmt_not_py root f h excl e, ih]

theorem zipLoop_error_of_unreadable (root fmt : String) (excl : List String) :
    ∀ walk (e : WalkEntry), WalkItem.ok e ∈ walk →
      processEntry root fmt excl e =
        some (ZipEntry.fileEntry e.relPath e.contents) →
      e.readable = false →
      zipLoop root fmt excl walk = Except.error "IoError: failed to open file" := by
  intro walk
  induction walk with
  | nil =>
    intro e he
    exact absurd he (List.not_mem_nil _)
  | cons i rest ih =>
    intro e he hpe hr
    rcases List.mem_cons.mp he with heq | hmem
    · subst heq
      simp [zipLoop, hpe, hr]
    · have hrest := ih e hmem hpe hr
      cases i with
      | err m => simpa [zipLoop] using hrest
      | ok e' =>
        cases hpe' : processEntry root fmt excl e' with
        | none => simpa [zipLoop, hpe'] using hrest
        | some z =>
          cases z with
          | dirEntry d => simp [zipLoop, hpe', hrest, Except.map]
          | fileEntry n c =>
            cases hr' : e'.readable with
            | false => simp [zipLoop, hpe', hr']
            | true => simp [zipLoop, hpe', hr', hrest, Except.map]

theorem zipLoop_ok_of_all_readable (root fmt : String) (excl : List String) :
    ∀ walk,
      (∀ e, WalkItem.ok e ∈ walk → ∀ n c,
        processEntry root fmt excl e = some (ZipEntry.fileEntry n c) →
        e.readable = true) →
      zipLoop root fmt excl walk =
        Except.ok ((okEntries walk).filterMap (processEntry root fmt excl)) := by
  intro walk
  induction walk with
  | nil =>
    intro _
    rfl
  | cons i rest ih =>
    intro h
    have hrest := ih fun e he n c hpe =>
      h e (List.mem_cons_of_mem i he) n c hpe
    cases i with
    | err m => simpa [zipLoop, okEntries] using hrest
    | ok e =>
      cases hpe : processEntry root fmt excl e with
      | none => simpa [zipLoop, okEntries, hpe, List.filterMap_cons] using hrest
      | some z =>
        cases z with
        | dirEntry d =>
          simp [zipLoop, okEntries, hpe, List.filterMap_cons, hrest, Except.map]
        | fileEntry n c =>
          have hr : e.readable = true :=
            h e (List.mem_cons_self (WalkItem.ok e) rest) n c hpe
          simp [zipLoop, okEntries, hpe, List.filterMap_cons, hr, hrest,
            Except.map]

/-! ### Structural lemmas about the orchestrator -/

theorem afterFormat_trace (fmt : String) (env : SendEnv) (checked : Bool) :
    (afterFormat fmt env checked).2.checkedServer = checked ∧
    (afterFormat fmt env checked).2.resolvedFormat = some fmt := by
  by_cases hv : (!(fmt == "repo") && !(fmt == "py")) = true
  · simp [afterFormat, hv]
  · rw [Bool.not_eq_true] at hv
    cases hb : env.buildResult with
    | error e => simp [afterFormat, hv, hb]
    | ok u =>
      cases hu : env.uploadResult with
      | error e => simp [afterFormat, hv, hb, hu]
      | ok v => simp [afterFormat, hv, hb, hu]

theorem afterFormat_validation (fmt : String) (env : SendEnv) (checked : Bool) :
    (fmt ≠ "repo" ∧ fmt ≠ "py" →
       afterFormat fmt env checked =
         (Outcome.failure ("Unsupported format: " ++ fmt),
          ⟨checked, some fmt, false, false⟩))
    ∧ ((fmt = "repo" ∨ fmt = "py") →
       (afterFormat fmt env checked).2.archiveBuilt = true) := by
  constructor
  · rintro ⟨h1, h2⟩
    have h1' : (fmt == "repo") = false := beq_eq_false_iff_ne.mpr h1
    have h2' : (fmt == "py") = false := beq_eq_false_iff_ne.mpr h2
    simp [afterFormat, h1', h2']
  · intro hv
    have hv' : (!(fmt == "repo") && !(fmt == "py")) = false := by
      rcases hv with rfl | rfl <;> simp
    cases hb : env.buildResult with
    | error e => simp [afterFormat, hv', hb]
    | ok u =>
      cases hu : env.uploadResult with
      | error e => simp [afterFormat, hv', hb, hu]
      | ok v => simp [afterFormat, hv', hb, hu]

/-! ### Claim theorems -/

/-- C1 (counterexample): the inclusion decision of the filter does NOT
depend only on the relative path, the exclusion set and the format.  The
exclusion test runs on the full walked path string, which carries the
root directory's own name: the same file `a.py`, with the same (empty)
user exclusion list and the same `"repo"` format, is archived when the
root is `/home/user/project` but dropped when the root is
`/home/user/target`, because the full path then contains the baseline
exclusion `"target"`. -/
theorem C1_counterexample :
    create_zip_archive "/home/user/project" "repo" []
        [⟨"a.py", true, true, []⟩] = [ZipEntry.fileEntry "a.py" []] ∧
    create_zip_archive "/home/user/target" "repo" []
        [⟨"a.py", true, true, []⟩] = [] := by
  decide

/-- C1 (amended): for every exclusion list (baseline plus user entries)
and every walked entry, the exclusion test drops the entry exactly when
the entry's FULL path string (the root-prefixed walked path, not the
relative path) contains some member of the list as a contiguous
substring, independent of path segment boundaries; and the whole
inclusion decision is characterised by the full path string, the entry's
file/directory kind, the exclusion set and the format: an entry is
skipped iff its full path contains an exclusion member, or ends with
`submission.yml`, or is the root itself, or is a regular file failing
the `"py"` allow-list. -/
theorem C1_exclusion_filter_characterization (root fmt : String)
    (cust : List String) (e : WalkEntry) :
    processEntry root fmt (baselineExclusions ++ cust) e = none ↔
      ((∃ x ∈ baselineExclusions ++ cust, ∃ l r,
          (pathStrOf root e).data = l ++ x.data ++ r)
       ∨ strEndsWith (pathStrOf root e) "submission.yml" = true
       ∨ e.relPath = ""
       ∨ (fmt = "py" ∧ e.isFile = true ∧
          pyIncludePatterns.any
            (fun p => strEndsWith (pathStrOf root e) p) = false)) := by
  rw [processEntry_eq_none_iff, excludedBySet_iff_exists]

/-- C3 (counterexample): a definitive response WAS obtained (the server
rejected the upload with status 500), yet the artifact is not deleted:
the function returns the `ServerRejected` error before reaching the
`remove_file` call. -/
theorem C3_counterexample :
    send_zip_to_endpoint true (HttpOutcome.response false 500 "limit") =
      (Except.error
        "Failed to send zip file to endpoint. Status: 500, Body: limit",
       false) := by
  rfl

/-- C3 (amended): the local artifact is deleted iff the artifact file
was readable AND the HTTP exchange produced a success response; on a
rejected (non-success) response the error propagates and the artifact
survives, and likewise when the exchange could not be attempted because
the artifact is unreadable or the transport failed.  Equivalently, the
call returns `Ok` exactly in the cases in which it deletes the
artifact. -/
theorem C3_cleanup_iff_success (fr : Bool) (o : HttpOutcome) :
    ((send_zip_to_endpoint fr o).2 = true ↔
       fr = true ∧ ∃ st b, o = HttpOutcome.response true st b)
    ∧ ((send_zip_to_endpoint fr o).1 = Except.ok () ↔
       fr = true ∧ ∃ st b, o = HttpOutcome.response true st b) := by
  constructor
  · cases fr with
    | false => simp [send_zip_to_endpoint]
    | true =>
      cases o with
      | transportErr m => simp [send_zip_to_endpoint]
      | response ok st b => cases ok <;> simp [send_zip_to_endpoint]
  · cases fr with
    | false => simp [send_zip_to_endpoint]
    | true =>
      cases o with
      | transportErr m => simp [send_zip_to_endpoint]
      | response ok st b => cases ok <;> simp [send_zip_to_endpoint]

/-- C9: every walked entry whose full path string ends with
`submission.yml` is skipped, whatever the format and whatever the
exclusion list; and conversely a regular file that is not excluded and
whose path does not end with that suffix is archived under the `"repo"`
format — the skip is keyed on the hard-coded name, not on whatever
configuration path was loaded. -/
theorem C9_submission_yml_skip (root : String) (excl : List String)
    (e : WalkEntry) :
    (∀ fmt, strEndsWith (pathStrOf root e) "submission.yml" = true →
       processEntry root fmt excl e = none)
    ∧ (e.isFile = true → e.relPath ≠ "" →
       excludedBySet (pathStrOf root e) excl = false →
       strEndsWith (pathStrOf root e) "submission.yml" = false →
       processEntry root "repo" excl e =
         some (ZipEntry.fileEntry e.relPath e.contents)) := by
  constructor
  · intro fmt hend
    by_cases h1 : excludedBySet (pathStrOf root e) excl = true
    · simp [processEntry, h1]
    · rw [Bool.not_eq_true] at h1
      simp [processEntry, h1, hend]
  · intro hf hne hex hend
    exact processEntry_file_some root "repo" excl e hf hex hend hne
      fun hr => absurd hr (by decide)

/-- C9 (witness): a file named `my_submission.yml` — which merely ends
with the suffix — is skipped, while `myconf.yml` is archived. -/
theorem C9_witness :
    processEntry "/home/user/project" "repo" baselineExclusions
        ⟨"my_submission.yml", true, true, []⟩ = none ∧
    processEntry "/home/user/project" "repo" baselineExclusions
        ⟨"myconf.yml", true, true, []⟩ =
      some (ZipEntry.fileEntry "myconf.yml" []) := by
  constructor
  · exact (C9_submission_yml_skip "/home/user/project" baselineExclusions
      ⟨"my_submission.yml", true, true, []⟩).1 "repo" (by decide)
  · exact (C9_submission_yml_skip "/home/user/project" baselineExclusions
      ⟨"myconf.yml", true, true, []⟩).2 rfl (by decide) (by decide) (by decide)

/-- C10: the archive builder performs no format validation: for every
format string other than `"py"`, it behaves exactly as it does for
`"repo"` — the same destination-creation behaviour, the same walked
entries kept and skipped, the same file and directory entries with the
same contents, and the same I/O failures. -/
theorem C10_no_format_validation (f : String) (h : f ≠ "py") (dest : Bool)
    (root : String) (cust : List String) (walk : List WalkItem) :
    create_zip_archiveE dest root f cust walk =
      create_zip_archiveE dest root "repo" cust walk := by
  cases dest with
  | false => rfl
  | true => simp [create_zip_archiveE, zipLoop_fmt_not_py root f h]

/-- C2: in every `"py"`-format run, every file entry of the archive has
a name ending in one of the fixed allow-listed suffixes (so no other
file entry exists), and a directory entry is added for every walked
directory that survives the exclusion and `submission.yml` tests —
regardless of whether any matching file lies inside it. -/
theorem C2_py_format_entries (root : String) (cust : List String)
    (entries : List WalkEntry) :
    (∀ name contents,
        ZipEntry.fileEntry name contents ∈
          create_zip_archive root "py" cust entries →
        pyIncludePatterns.any (fun p => strEndsWith name p) = true)
    ∧ (∀ e ∈ entries, e.isFile = false →
        excludedBySet (pathStrOf root e) (baselineExclusions ++ cust) = false →
        strEndsWith (pathStrOf root e) "submission.yml" = false →
        e.relPath ≠ "" →
        ZipEntry.dirEntry e.relPath ∈
          create_zip_archive root "py" cust entries) := by
  constructor
  · intro name contents hmem
    simp only [create_zip_archive] at hmem
    obtain ⟨e, he, hpe⟩ := List.mem_filterMap.mp hmem
    obtain ⟨hn, hc, hf, hne, hex, hend, hpy⟩ :=
      processEntry_some_file_inv root "py" (baselineExclusions ++ cust) e
        name contents hpe
    have hany := hpy rfl
    have hpath : pathStrOf root e = root ++ "/" ++ e.relPath := by
      simp [pathStrOf, beq_eq_false_iff_ne.mpr hne]
    rw [hpath, pyAny_slash_append] at hany
    rw [hn]
    exact hany
  · intro e he hdir hex hend hne
    simp only [create_zip_archive]
    exact List.mem_filterMap.mpr ⟨e, he,
      processEntry_dir_some root "py" (baselineExclusions ++ cust) e
        hdir hex hend hne⟩

/-- Concrete walk used to witness C2: one matching file, one
non-matching file, and a directory containing no matching file. -/
def c2Entries : List WalkEntry :=
  [⟨"a.py", true, true, [10]⟩, ⟨"README.md", true, true, [7]⟩,
   ⟨"docs", false, true, []⟩]

/-- C2 (witness): on the concrete walk, the archived file `a.py` matches
the allow-list and the matching-file-free directory `docs` is still
archived. -/
theorem C2_witness :
    pyIncludePatterns.any (fun p => strEndsWith "a.py" p) = true ∧
    ZipEntry.dirEntry "docs" ∈
      create_zip_archive "/home/user/project" "py" [] c2Entries := by
  constructor
  · exact (C2_py_format_entries "/home/user/project" [] c2Entries).1
      "a.py" [10] (by decide)
  · exact (C2_py_format_entries "/home/user/project" [] c2Entries).2
      ⟨"docs", false, true, []⟩ (by decide) rfl (by decide) (by decide)
      (by decide)

/-- Definition following the words of claim C7 — the claimed file-entry
set: all regular files under the root, minus those whose paths contain a
fixed baseline exclusion, minus the configuration file name
`submission.yml`.  To be compared with what the builder actually
produces. -/
def claimedRepoFileSet (root : String) (entries : List WalkEntry) :
    List String :=
  (entries.filter (fun e => e.isFile &&
      !(excludedBySet (pathStrOf root e) baselineExclusions) &&
      !(e.relPath == "submission.yml"))).map (fun e => e.relPath)

/-- C7 (counterexample): the claimed set keeps the regular file
`my_submission.yml` — its path contains no baseline exclusion and it is
not the configuration file name — but the builder drops it, because the
skip tests `ends_with("submission.yml")` rather than equality with the
configuration file name. -/
theorem C7_counterexample :
    fileNames (create_zip_archive "/home/user/project" "repo" []
        [⟨"my_submission.yml", true, true, []⟩]) = [] ∧
    claimedRepoFileSet "/home/user/project"
        [⟨"my_submission.yml", true, true, []⟩] = ["my_submission.yml"] := by
  decide

theorem fileNames_filterMap_repo (root : String) (excl : List String) :
    ∀ entries : List WalkEntry,
      (∀ e ∈ entries, e.isFile = true → e.relPath ≠ "") →
      fileNames (entries.filterMap (processEntry root "repo" excl)) =
        (entries.filter (fun e => e.isFile &&
            !(excludedBySet (pathStrOf root e) excl) &&
            !(strEndsWith (pathStrOf root e) "submission.yml"))).map
          (fun e => e.relPath) := by
  intro entries
  induction entries with
  | nil =>
    intro _
    rfl
  | cons e rest ih =>
    intro h
    have hrest := ih fun x hx => h x (List.mem_cons_of_mem e hx)
    rw [List.filterMap_cons, List.filter_cons]
    by_cases h1 : excludedBySet (pathStrOf root e) excl = true
    · have hpe : processEntry root "repo" excl e = none := by
        simp [processEntry, h1]
      simp [hpe, h1, hrest]
    · rw [Bool.not_eq_true] at h1
      by_cases h2 : strEndsWith (pathStrOf root e) "submission.yml" = true
      · have hpe : processEntry root "repo" excl e = none := by
          simp [processEntry, h1, h2]
        simp [hpe, h1, h2, hrest]
      · rw [Bool.not_eq_true] at h2
        by_cases hf : e.isFile = true
        · have hne := h e (List.mem_cons_self e rest) hf
          have hpe := processEntry_file_some root "repo" excl e hf h1 h2 hne
            fun hr => absurd hr (by decide)
          simp [hpe, h1, h2, hf, fileNames, hrest]
        · rw [Bool.not_eq_true] at hf
          by_cases hne : e.relPath = ""
          · have hpe : processEntry root "repo" excl e = none := by
              simp [processEntry, h1, h2, hne]
            simp [hpe, h1, h2, hf, hrest]
          · have hpe := processEntry_dir_some root "repo" excl e hf h1 h2 hne
            simp [hpe, h1, h2, hf, fileNames, hrest]

/-- C7 (amended): for every `"repo"`-format run with an empty user
exclusion list over a walk whose regular files have non-empty relative
paths, the archive's file-entry names are exactly the regular files
whose FULL path string contains no baseline exclusion and whose full
path string does not end with `submission.yml` (the skip is a suffix
test on the full path, not equality with the configuration file
name). -/
theorem C7_repo_empty_exclusions (root : String) (entries : List WalkEntry)
    (h : ∀ e ∈ entries, e.isFile = true → e.relPath ≠ "") :
    fileNames (create_zip_archive root "repo" [] entries) =
      (entries.filter (fun e => e.isFile &&
          !(excludedBySet (pathStrOf root e) baselineExclusions) &&
          !(strEndsWith (pathStrOf root e) "submission.yml"))).map
        (fun e => e.relPath) := by
  have hmain := fileNames_filterMap_repo root baselineExclusions entries h
  simpa only [create_zip_archive, List.append_nil] using hmain

/-- Concrete walk used to witness C7. -/
def c7Entries : List WalkEntry :=
  [⟨"a.py", true, true, [1]⟩, ⟨"README.md", true, true, [2]⟩,
   ⟨".git/config", true, true, []⟩, ⟨"submission.yml", true, true, []⟩,
   ⟨"docs", false, true, []⟩]

/-- C7 (witness): the amended equality evaluated on a concrete walk. -/
theorem C7_witness :
    fileNames (create_zip_archive "/home/user/project" "repo" [] c7Entries) =
      (c7Entries.filter (fun e => e.isFile &&
          !(excludedBySet (pathStrOf "/home/user/project" e)
              baselineExclusions) &&
          !(strEndsWith (pathStrOf "/home/user/project" e)
              "submission.yml"))).map (fun e => e.relPath) :=
  C7_repo_empty_exclusions "/home/user/project" c7Entries (by decide)

/-- C8 (counterexample): a walk whose only item is a walk error — which
is what an unreadable root produces — does NOT fail the build: the
error item is dropped by `filter_map(|e| e.ok())` and an (empty) archive
artifact is still returned. -/
theorem C8_counterexample :
    create_zip_archiveE true "/home/user/project" "repo" []
        [WalkItem.err "permission denied reading root"] = Except.ok [] := by
  rfl

/-- C8 (amended): the builder fails with an I/O error when the
destination archive path cannot be written, and when an included file
cannot be opened — in both cases no artifact entry list is returned;
but errors of the directory walk itself (an unreadable root or
subdirectory) are silently dropped, and when every included file is
readable the build succeeds on the remaining entries. -/
theorem C8_io_error_behaviour (root fmt : String) (cust : List String)
    (walk : List WalkItem) :
    (create_zip_archiveE false root fmt cust walk =
       Except.error "IoError: failed to create destination archive file")
    ∧ (∀ e, WalkItem.ok e ∈ walk →
        processEntry root fmt (baselineExclusions ++ cust) e =
          some (ZipEntry.fileEntry e.relPath e.contents) →
        e.readable = false →
        create_zip_archiveE true root fmt cust walk =
          Except.error "IoError: failed to open file")
    ∧ ((∀ e, WalkItem.ok e ∈ walk → ∀ n c,
          processEntry root fmt (baselineExclusions ++ cust) e =
            some (ZipEntry.fileEntry n c) →
          e.readable = true) →
        create_zip_archiveE true root fmt cust walk =
          Except.ok (create_zip_archive root fmt cust (okEntries walk))) := by
  refine ⟨rfl, ?_, ?_⟩
  · intro e he hpe hr
    simp [create_zip_archiveE,
      zipLoop_error_of_unreadable root fmt (baselineExclusions ++ cust)
        walk e he hpe hr]
  · intro h
    simp [create_zip_archiveE, create_zip_archive,
      zipLoop_ok_of_all_readable root fmt (baselineExclusions ++ cust) walk h]

/-- C8 (witness): an unwritable destination fails the build, and an
unreadable included file fails it. -/
theorem C8_witness :
    create_zip_archiveE false "/home/user/project" "repo" [] [] =
      Except.error "IoError: failed to create destination archive file" ∧
    create_zip_archiveE true "/home/user/project" "repo" []
        [WalkItem.ok ⟨"locked.txt", true, false, []⟩] =
      Except.error "IoError: failed to open file" :=
  ⟨(C8_io_error_behaviour "/home/user/project" "repo" [] []).1,
   (C8_io_error_behaviour "/home/user/project" "repo" []
      [WalkItem.ok ⟨"locked.txt", true, false, []⟩]).2.1
     ⟨"locked.txt", true, false, []⟩
     (List.mem_cons_self (WalkItem.ok ⟨"locked.txt", true, false, []⟩) [])
     (by decide) rfl⟩

/-- C10 (witness): the builder treats the unvalidated format string
`"tar"` exactly as `"repo"` on a concrete walk. -/
theorem C10_witness :
    create_zip_archiveE true "/home/user/project" "tar" []
        [WalkItem.ok ⟨"a.py", true, true, [1, 2]⟩,
         WalkItem.ok ⟨"docs", false, true, []⟩] =
      create_zip_archiveE true "/home/user/project" "repo" []
        [WalkItem.ok ⟨"a.py", true, true, [1, 2]⟩,
         WalkItem.ok ⟨"docs", false, true, []⟩] :=
  C10_no_format_validation "tar" (by decide) true "/home/user/project" []
    [WalkItem.ok ⟨"a.py", true, true, [1, 2]⟩,
     WalkItem.ok ⟨"docs", false, true, []⟩]

/-- C4: when the eligibility check answers with
`submission_approved = false`, and likewise when the user declines at
the confirmation prompt, the run terminates as a successful early
termination — exit status zero, no archive construction (hence no
filesystem write), no upload call. -/
theorem C4_early_termination (ff cf : Option String) (acF acC : Bool)
    (env : SendEnv) (resp : CheckResponseM) :
    (ff = none → cf = none →
     check_with_server env.checkHttp = Except.ok resp →
     resp.submission_approved = false →
     exitZero (runSend ff cf acF acC env).1 = true ∧
     runSend ff cf acF acC env =
       (Outcome.earlyExit "Submission not allowed. No remaining attempts.",
        ⟨true, none, false, false⟩))
    ∧ (ff = none → cf = none →
       check_with_server env.checkHttp = Except.ok resp →
       resp.submission_approved = true →
       acF = false → acC = false → env.userConfirms = false →
       exitZero (runSend ff cf acF acC env).1 = true ∧
       runSend ff cf acF acC env =
         (Outcome.earlyExit "Submission cancelled.",
          ⟨true, none, false, false⟩)) := by
  constructor
  · rintro rfl rfl hcheck happ
    simp [runSend, hcheck, happ, exitZero]
  · rintro rfl rfl hcheck happ rfl rfl huc
    simp [runSend, hcheck, happ, huc, exitZero]

/-- Concrete environment for the non-approved C4 scenario. -/
def envNotApproved : SendEnv :=
  ⟨CheckHttp.httpResp true 200 (Except.ok ⟨false, "repo", 0⟩), true,
   Except.ok (), Except.ok ()⟩

/-- Concrete environment for the user-decline C4 scenario. -/
def envDecline : SendEnv :=
  ⟨CheckHttp.httpResp true 200 (Except.ok ⟨true, "repo", 3⟩), false,
   Except.ok (), Except.ok ()⟩

/-- C4 (witness): both early-termination scenarios evaluated
concretely. -/
theorem C4_witness :
    runSend none none false false envNotApproved =
      (Outcome.earlyExit "Submission not allowed. No remaining attempts.",
       ⟨true, none, false, false⟩) ∧
    runSend none none false false envDecline =
      (Outcome.earlyExit "Submission cancelled.",
       ⟨true, none, false, false⟩) :=
  ⟨((C4_early_termination none none false false envNotApproved
      ⟨false, "repo", 0⟩).1 rfl rfl rfl rfl).2,
   ((C4_early_termination none none false false envDecline
      ⟨true, "repo", 3⟩).2 rfl rfl rfl rfl rfl rfl rfl).2⟩

/-- C5: the format is resolved once, in priority order: a forced format
skips the eligibility network check entirely; otherwise a configured
format likewise skips it; only when neither is present is the remote
check performed, and (when the run proceeds) its `required_format`
becomes the resolved format. -/
theorem C5_format_resolution_priority (ff cf : Option String)
    (acF acC : Bool) (env : SendEnv) :
    (∀ f, ff = some f →
       (runSend ff cf acF acC env).2.checkedServer = false ∧
       (runSend ff cf acF acC env).2.resolvedFormat = some f)
    ∧ (∀ f, ff = none → cf = some f →
       (runSend ff cf acF acC env).2.checkedServer = false ∧
       (runSend ff cf acF acC env).2.resolvedFormat = some f)
    ∧ (∀ resp, ff = none → cf = none →
       check_with_server env.checkHttp = Except.ok resp →
       resp.submission_approved = true →
       (acF || acC || env.userConfirms) = true →
       (runSend ff cf acF acC env).2.checkedServer = true ∧
       (runSend ff cf acF acC env).2.resolvedFormat =
         some resp.required_format) := by
  refine ⟨?_, ?_, ?_⟩
  · rintro f rfl
    simpa [runSend] using afterFormat_trace f env false
  · rintro f rfl rfl
    simpa [runSend] using afterFormat_trace f env false
  · rintro resp rfl rfl hcheck happ hgate
    have hafter := afterFormat_trace resp.required_format env true
    cases acF with
    | true => simpa [runSend, hcheck, happ] using hafter
    | false =>
      cases acC with
      | true => simpa [runSend, hcheck, happ] using hafter
      | false =>
        have hU : env.userConfirms = true := by simpa using hgate
        simpa [runSend, hcheck, happ, hU] using hafter

/-- Concrete environment for the C5 witness: the server dictates the
`"py"` format and auto-confirm is taken from the flag. -/
def envServerPy : SendEnv :=
  ⟨CheckHttp.httpResp true 200 (Except.ok ⟨true, "py", 2⟩), false,
   Except.ok (), Except.ok ()⟩

/-- C5 (witness): all three resolution priorities evaluated
concretely. -/
theorem C5_witness :
    ((runSend (some "py") (some "repo") false false envServerPy).2.checkedServer
        = false ∧
     (runSend (some "py") (some "repo") false false envServerPy).2.resolvedFormat
        = some "py") ∧
    ((runSend none (some "repo") false false envServerPy).2.checkedServer
        = false ∧
     (runSend none (some "repo") false false envServerPy).2.resolvedFormat
        = some "repo") ∧
    ((runSend none none true false envServerPy).2.checkedServer = true ∧
     (runSend none none true false envServerPy).2.resolvedFormat
        = some "py") :=
  ⟨(C5_format_resolution_priority (some "py") (some "repo") false false
      envServerPy).1 "py" rfl,
   (C5_format_resolution_priority none (some "repo") false false
      envServerPy).2.1 "repo" rfl rfl,
   (C5_format_resolution_priority none none true false
      envServerPy).2.2 ⟨true, "py", 2⟩ rfl rfl rfl rfl rfl⟩

/-- C6: whenever a run resolves a format, that format is validated
against exactly the two accepted values before any archive is built:
any other value — whatever its source — makes the run fail with the
`Unsupported format` configuration error, a non-zero exit, and no
archive construction; either accepted value lets the build proceed. -/
theorem C6_format_validation (ff cf : Option String) (acF acC : Bool)
    (env : SendEnv) (f : String) :
    (runSend ff cf acF acC env).2.resolvedFormat = some f →
      ((f ≠ "repo" ∧ f ≠ "py" →
          (runSend ff cf acF acC env).1 =
            Outcome.failure ("Unsupported format: " ++ f) ∧
          exitZero (runSend ff cf acF acC env).1 = false ∧
          (runSend ff cf acF acC env).2.archiveBuilt = false)
       ∧ ((f = "repo" ∨ f = "py") →
          (runSend ff cf acF acC env).2.archiveBuilt = true)) := by
  have main : ∀ (g : String) (checked : Bool),
      runSend ff cf acF acC env = afterFormat g env checked →
      (runSend ff cf acF acC env).2.resolvedFormat = some f →
      ((f ≠ "repo" ∧ f ≠ "py" →
          (runSend ff cf acF acC env).1 =
            Outcome.failure ("Unsupported format: " ++ f) ∧
          exitZero (runSend ff cf acF acC env).1 = false ∧
          (runSend ff cf acF acC env).2.archiveBuilt = false)
       ∧ ((f = "repo" ∨ f = "py") →
          (runSend ff cf acF acC env).2.archiveBuilt = true)) := by
    intro g checked heq hres
    rw [heq] at hres
    rw [(afterFormat_trace g env checked).2] at hres
    have hg : g = f := Option.some.injEq .. ▸ hres
    subst hg
    rw [heq]
    constructor
    · intro hbad
      rw [(afterFormat_validation g env checked).1 hbad]
      exact ⟨rfl, rfl, rfl⟩
    · intro hv
      exact (afterFormat_validation g env checked).2 hv
  intro hres
  cases ff with
  | some g => exact main g false rfl hres
  | none =>
    cases cf with
    | some g => exact main g false rfl hres
    | none =>
      cases hcheck : check_with_server env.checkHttp with
      | error m => simp [runSend, hcheck] at hres
      | ok resp =>
        cases happ : resp.submission_approved with
        | false => simp [runSend, hcheck, happ] at hres
        | true =>
          cases acF with
          | true =>
            have heq : runSend none none true acC env =
                afterFormat resp.required_format env true := by
              simp [runSend, hcheck, happ]
            exact main resp.required_format true heq hres
          | false =>
            cases acC with
            | true =>
              have heq : runSend none none false true env =
                  afterFormat resp.required_format env true := by
                simp [runSend, hcheck, happ]
              exact main resp.required_format true heq hres
            | false =>
              cases hU : env.userConfirms with
              | false => simp [runSend, hcheck, happ, hU] at hres
              | true =>
                have heq : runSend none none false false env =
                    afterFormat resp.required_format env true := by
                  simp [runSend, hcheck, happ, hU]
                exact main resp.required_format true heq hres

/-- Concrete environment for the C6 witness (the network is never
consulted because a forced format is present). -/
def envForced : SendEnv :=
  ⟨CheckHttp.transportErr "unused", true, Except.ok (), Except.ok ()⟩

/-- C6 (witness): the forced format `"java"` fails validation before any
build, while the forced format `"repo"` reaches the build step. -/
theorem C6_witness :
    (runSend (some "java") none false false envForced).1 =
      Outcome.failure ("Unsupported format: " ++ "java") ∧
    (runSend (some "repo") none false false envForced).2.archiveBuilt =
      true :=
  ⟨((C6_format_validation (some "java") none false false envForced "java"
      rfl).1 (by decide)).1,
   (C6_format_validation (some "repo") none false false envForced "repo"
      rfl).2 (Or.inl rfl)⟩

end RepoZipper
